import Mathlib

/-!
Verification of the Konoha focus-timer core against its specification.

The development shallowly embeds the timer store (`src/store/timerStore.ts`,
shipped here inside `components/QuoteShowcase.tsx`), the countdown engine
(`src/hooks/useTimerEngine.ts`) and the soundscape hook
(`src/hooks/useSoundscape.ts`).  JavaScript numbers standing for integral
millisecond counts become `ℤ`/`Nat`; `Date.now()` becomes an explicit `now`
argument; audio gain values become `ℚ`; nullable references become `Option`.
-/

/-! ## Timer store (`timerStore.ts`) -/

inductive TimerPhase
  | focus
  | shortBreak
  | longBreak
deriving DecidableEq, Repr

inductive TimerStatus
  | idle
  | running
  | paused
deriving DecidableEq, Repr

structure TimerConfig where
  focusMinutes : Nat
  shortBreakMinutes : Nat
  longBreakMinutes : Nat
  sessionsBeforeLongBreak : Nat
  autoStart : Bool
deriving DecidableEq, Repr

structure TimerPreset extends TimerConfig where
  id : String
  name : String
deriving DecidableEq, Repr

structure TimerState where
  phase : TimerPhase
  status : TimerStatus
  remainingMs : ℤ
  targetEnd : Option ℤ
  completedFocusCount : Nat
  config : TimerConfig
  presets : List TimerPreset
  selectedPresetId : Option String
deriving DecidableEq, Repr

def MINUTE : Nat := 60000

def initialConfig : TimerConfig :=
  { focusMinutes := 25
    shortBreakMinutes := 5
    longBreakMinutes := 15
    sessionsBeforeLongBreak := 4
    autoStart := false }

def durationForPhase (phase : TimerPhase) (config : TimerConfig) : Nat :=
  match phase with
  | .focus => config.focusMinutes * MINUTE
  | .shortBreak => config.shortBreakMinutes * MINUTE
  | .longBreak => config.longBreakMinutes * MINUTE

def initialState : TimerState :=
  { phase := .focus
    status := .idle
    remainingMs := (durationForPhase .focus initialConfig : ℤ)
    targetEnd := none
    completedFocusCount := 0
    config := initialConfig
    presets := []
    selectedPresetId := none }

def start (now : ℤ) (s : TimerState) : TimerState :=
  let remainingMs := (durationForPhase .focus s.config : ℤ)
  { s with
    phase := .focus
    status := .running
    remainingMs := remainingMs
    targetEnd := some (now + remainingMs)
    completedFocusCount := 0 }

def pause (s : TimerState) : TimerState :=
  if s.status ≠ .running then s
  else { s with status := .paused, targetEnd := none }

def resume (now : ℤ) (s : TimerState) : TimerState :=
  if s.status ≠ .paused ∧ s.status ≠ .idle then s
  else { s with status := .running, targetEnd := some (now + s.remainingMs) }

def reset (s : TimerState) : TimerState :=
  { s with
    phase := .focus
    status := .idle
    remainingMs := (durationForPhase .focus s.config : ℤ)
    targetEnd := none
    completedFocusCount := 0 }

def setRemaining (remainingMs : ℤ) (s : TimerState) : TimerState :=
  if s.status ≠ .running then s
  else { s with remainingMs := remainingMs }

def completePhase (now : ℤ) (s : TimerState) : TimerState :=
  let next : TimerPhase × Nat :=
    match s.phase with
    | .focus =>
      let achieved := s.completedFocusCount + 1
      if achieved ≥ s.config.sessionsBeforeLongBreak then (.longBreak, 0)
      else (.shortBreak, achieved)
    | .shortBreak => (.focus, s.completedFocusCount)
    | .longBreak => (.focus, 0)
  let nextDuration := durationForPhase next.1 s.config
  { s with
    phase := next.1
    status := if s.config.autoStart then .running else .idle
    remainingMs := (nextDuration : ℤ)
    targetEnd := if s.config.autoStart then some (now + (nextDuration : ℤ)) else none
    completedFocusCount := next.2 }

def skip (now : ℤ) (s : TimerState) : TimerState :=
  completePhase now s

structure TimerConfigPatch where
  focusMinutes : Option Nat := none
  shortBreakMinutes : Option Nat := none
  longBreakMinutes : Option Nat := none
  sessionsBeforeLongBreak : Option Nat := none
  autoStart : Option Bool := none
deriving DecidableEq, Repr

def mergeConfig (c : TimerConfig) (p : TimerConfigPatch) : TimerConfig :=
  { focusMinutes := p.focusMinutes.getD c.focusMinutes
    shortBreakMinutes := p.shortBreakMinutes.getD c.shortBreakMinutes
    longBreakMinutes := p.longBreakMinutes.getD c.longBreakMinutes
    sessionsBeforeLongBreak := p.sessionsBeforeLongBreak.getD c.sessionsBeforeLongBreak
    autoStart := p.autoStart.getD c.autoStart }

def updateConfig (p : TimerConfigPatch) (s : TimerState) : TimerState :=
  let config := mergeConfig s.config p
  let remainingMs := (durationForPhase s.phase config : ℤ)
  if s.status = .idle then { s with config := config, remainingMs := remainingMs }
  else { s with config := config }

def createPreset (genId : String) (name : String) (s : TimerState) : TimerState :=
  let trimmed := name.trim
  if trimmed = "" then s
  else
    let preset : TimerPreset := { toTimerConfig := s.config, id := genId, name := trimmed }
    { s with presets := s.presets ++ [preset], selectedPresetId := some preset.id }

def loadPreset (id : String) (s : TimerState) : TimerState :=
  match s.presets.find? (fun item => item.id = id) with
  | none => s
  | some preset =>
    { s with
      config := preset.toTimerConfig
      phase := .focus
      status := .idle
      remainingMs := (durationForPhase .focus preset.toTimerConfig : ℤ)
      targetEnd := none
      completedFocusCount := 0
      selectedPresetId := some preset.id }

def updatePresetFromCurrent (id : String) (nextName : Option String) (s : TimerState) :
    TimerState :=
  { s with
    presets := s.presets.map (fun preset =>
      if preset.id = id then
        { toTimerConfig := s.config
          id := preset.id
          name :=
            match nextName with
            | some nm => if nm.trim ≠ "" then nm.trim else preset.name
            | none => preset.name }
      else preset)
    selectedPresetId := some id }

def deletePreset (id : String) (s : TimerState) : TimerState :=
  { s with
    presets := s.presets.filter (fun preset => preset.id ≠ id)
    selectedPresetId := if s.selectedPresetId = some id then none else s.selectedPresetId }

def clearPresetSelection (s : TimerState) : TimerState :=
  { s with selectedPresetId := none }

/-! ## Countdown engine (`useTimerEngine.ts`)

The engine's effect runs while `status = running` and a deadline `targetEnd`
is set.  On entry it clears the single-fire latch (`completionHandled`), then
repeatedly runs `step`.  A step reads the wall clock, recomputes
`remaining = targetEnd - now`, and either fires completion (once, guarded by
the latch) or publishes the remaining time and schedules the next wake-up
after an adaptive interval.  `engineStep` embeds one run of `step` as a pure
function of the deadline, the clock value observed, and the latch; the
externally visible effects become an ordered list of `EngineAction`s. -/

def getTickInterval (remaining : ℤ) : ℤ :=
  if remaining > 5 * 60000 then 1000
  else if remaining > 60000 then 500
  else if remaining > 10000 then 250
  else 100

inductive EngineAction
  | setDisplay (remaining : ℤ)
  | phaseCallback
  | storeComplete
deriving DecidableEq, Repr

def engineStep (targetEnd now : ℤ) (handled : Bool) : Bool × List EngineAction :=
  let remaining := targetEnd - now
  if remaining ≤ 0 then
    if handled then (true, [])
    else (true, [.setDisplay 0, .phaseCallback, .storeComplete])
  else (handled, [.setDisplay remaining])

/-- The actions emitted by running `step` at each clock value of `times` in
order, threading the latch through. -/
def engineTrace (targetEnd : ℤ) (handled : Bool) : List ℤ → List EngineAction
  | [] => []
  | t :: ts =>
    let r := engineStep targetEnd t handled
    r.2 ++ engineTrace targetEnd r.1 ts

/-- A fresh Running session with a deadline begins with the latch cleared
(`completionHandled.current = false` at the top of the effect). -/
def sessionTrace (targetEnd : ℤ) (times : List ℤ) : List EngineAction :=
  engineTrace targetEnd false times

/-- The clock value of the wake-up that a non-firing step at `now` schedules:
`window.setTimeout(step, getTickInterval remaining)`. -/
def nextWake (targetEnd now : ℤ) : ℤ :=
  now + getTickInterval (targetEnd - now)

/-- The clock value at which the self-scheduled loop started at `now` fires
completion, assuming each wake-up runs at its scheduled time.  `fuel` bounds
the number of steps so the recursion is total. -/
def fireTime (targetEnd : ℤ) (now : ℤ) : Nat → Option ℤ
  | 0 => none
  | fuel + 1 =>
    if targetEnd - now ≤ 0 then some now
    else fireTime targetEnd (nextWake targetEnd now) fuel

/-! ## Soundscape (`useSoundscape.ts`)

The hook owns an `AudioContext` ref, a repeating tick interval ref, a live
tick-volume ref and the ambient voice-graph handle.  `SoundState` embeds
those refs.  Audio nodes are modelled by identifiers drawn from a fresh-id
counter `nextNode`; the nodes of the ambient graph that are currently
connected are the list `ambientLive` (alarm and tick nodes are transient and
release themselves, so only their allocation is counted).  Repeating
intervals are likewise identified by a counter `nextInterval`. -/

inductive AlarmTone
  | gentleChime
  | deepFocus
  | brightPulse
deriving DecidableEq, Repr

inductive AmbientMode
  | waves
  | clouds
  | gradient
deriving DecidableEq, Repr

structure AmbientHandle where
  mode : AmbientMode
  gain : Nat
  gainTarget : ℚ
  sources : List Nat
deriving DecidableEq, Repr

structure SoundState where
  supported : Bool
  hasContext : Bool
  isReady : Bool
  nextNode : Nat
  ambientLive : List Nat
  ambient : Option AmbientHandle
  tickInterval : Option Nat
  nextInterval : Nat
  tickVolume : ℚ
  tickBuffer : Bool
deriving DecidableEq, Repr

def isAudioSupported (st : SoundState) : Bool :=
  st.supported

/-- `ensureContext`: reuse the existing context, else lazily create one when
the host supports audio; returns whether a context is available.  (Resuming a
suspended context is an effect on the platform object, invisible here.) -/
def ensureContext (st : SoundState) : SoundState × Bool :=
  if st.hasContext then ({ st with isReady := true }, true)
  else if st.supported then ({ st with hasContext := true, isReady := true }, true)
  else (st, false)

def prime (st : SoundState) : SoundState × Bool :=
  ensureContext st

/-- Oscillator/gain pairs created per tone of a preset; every preset has
three tones (`tonePresets`), plus the one-shot master gain. -/
def alarmNodeCount : Nat := 1 + 2 * 3

def playAlarm (st : SoundState) : SoundState :=
  let p := ensureContext st
  if p.2 then { p.1 with nextNode := p.1.nextNode + alarmNodeCount } else p.1

def playTickPulse (st : SoundState) : SoundState :=
  let p := ensureContext st
  if p.2 then { p.1 with tickBuffer := true, nextNode := p.1.nextNode + 2 } else p.1

def startTicking (volume : ℚ) (st : SoundState) : SoundState × Bool :=
  let st0 := { st with tickVolume := volume }
  let p := ensureContext st0
  if !p.2 then (p.1, false)
  else if p.1.tickInterval.isSome then (p.1, true)
  else
    let st1 := playTickPulse p.1
    ({ st1 with
        tickInterval := some st1.nextInterval
        nextInterval := st1.nextInterval + 1 }, true)

def stopTicking (st : SoundState) : SoundState :=
  { st with tickInterval := none }

def setTickLoopVolume (value : ℚ) (st : SoundState) : SoundState :=
  { st with tickVolume := value }

def ambientNodes (h : AmbientHandle) : List Nat :=
  h.gain :: h.sources

def stopAmbient (st : SoundState) : SoundState :=
  match st.ambient with
  | none => st
  | some h =>
    { st with
      ambientLive := st.ambientLive.filter (fun n => n ∉ ambientNodes h)
      ambient := none }

/-- `register` calls while building each mode's graph: `waves` makes three
voices of oscillator + voice gain + LFO (oscillator + gain); `clouds` makes
base, shimmer, pitch gain, voice gain, delay and feedback; `gradient` makes
pad, pad gain, filter, LFO (oscillator + gain), bell and bell gain. -/
def ambientSourceCount : AmbientMode → Nat
  | .waves => 3 * 4
  | .clouds => 6
  | .gradient => 7

/-- Builds the mode's voice graph: the master ambient gain node first (set to
the clamped volume and connected to the destination), then the registered
source nodes, all freshly created and connected. -/
def buildAmbient (mode : AmbientMode) (volume : ℚ) (st : SoundState) :
    AmbientHandle × SoundState :=
  let gain := st.nextNode
  let sources := (List.range (ambientSourceCount mode)).map (fun i => st.nextNode + 1 + i)
  ({ mode := mode, gain := gain, gainTarget := max 0.0001 volume, sources := sources },
   { st with
      nextNode := st.nextNode + 1 + ambientSourceCount mode
      ambientLive := st.ambientLive ++ gain :: sources })

def startAmbient (mode : AmbientMode) (volume : ℚ) (st : SoundState) :
    SoundState × Bool :=
  let p := ensureContext st
  if !p.2 then (p.1, false)
  else
    match p.1.ambient with
    | some h =>
      if h.mode = mode then
        ({ p.1 with ambient := some { h with gainTarget := max 0.0001 volume } }, true)
      else
        let st2 := stopAmbient p.1
        let q := buildAmbient mode volume st2
        ({ q.2 with ambient := some q.1 }, true)
    | none =>
      let q := buildAmbient mode volume p.1
      ({ q.2 with ambient := some q.1 }, true)

/-! ## Gain envelopes

The automation events placed on a single `AudioParam` (a gain, in scheduling
order) during each playback path.  Values are exact rationals; times are
offsets from `context.currentTime`. -/

inductive GainEvent
  | setValue (time value : ℚ)
  | expRamp (endTime value : ℚ)
  | linRamp (endTime value : ℚ)
  | setTarget (startTime value timeConstant : ℚ)
deriving DecidableEq, Repr

/-- The silence floor used throughout `useSoundscape.ts`. -/
def epsQ : ℚ := 0.0001

inductive OscShape
  | sine
  | triangle
  | square
  | sawtooth
deriving DecidableEq, Repr

structure ToneSpec where
  frequency : ℚ
  startOffset : ℚ
  duration : ℚ
  shape : OscShape
  attack : ℚ := 0.02
  decay : ℚ := 0.25
  detune : ℚ := 0
deriving DecidableEq, Repr

/-- `scheduleTone`: the envelope on the tone's own gain node. -/
def scheduleToneGainEvents (currentTime : ℚ) (t : ToneSpec) : List GainEvent :=
  let startTime := currentTime + t.startOffset
  [ .setValue startTime epsQ
  , .expRamp (startTime + t.attack) 1
  , .expRamp (startTime + t.duration + t.decay) epsQ ]

def tonePreset : AlarmTone → List ToneSpec
  | .gentleChime =>
    [ { frequency := 784, startOffset := 0, duration := 0.45, shape := .sine,
        attack := 0.04, decay := 0.4 }
    , { frequency := 987, startOffset := 0.15, duration := 0.5, shape := .sine,
        attack := 0.05, decay := 0.45 }
    , { frequency := 523, startOffset := 0.4, duration := 0.6, shape := .triangle,
        attack := 0.03, decay := 0.55 } ]
  | .deepFocus =>
    [ { frequency := 220, startOffset := 0, duration := 0.6, shape := .sawtooth,
        attack := 0.03, decay := 0.4 }
    , { frequency := 440, startOffset := 0.3, duration := 0.5, shape := .triangle,
        attack := 0.02, decay := 0.35 }
    , { frequency := 660, startOffset := 0.55, duration := 0.45, shape := .triangle,
        attack := 0.02, decay := 0.4 } ]
  | .brightPulse =>
    [ { frequency := 880, startOffset := 0, duration := 0.25, shape := .square,
        attack := 0.01, decay := 0.25 }
    , { frequency := 1046, startOffset := 0.2, duration := 0.3, shape := .square,
        attack := 0.01, decay := 0.3 }
    , { frequency := 1318, startOffset := 0.35, duration := 0.35, shape := .sawtooth,
        attack := 0.015, decay := 0.4 } ]

/-- `playAlarm`: the master gain's envelope followed by the envelope on each
of the preset's tone gains, one list per gain node. -/
def playAlarmGainEvents (currentTime : ℚ) (tone : AlarmTone) (volume : ℚ) :
    List (List GainEvent) :=
  [ .setValue currentTime (max epsQ volume)
  , .expRamp (currentTime + 3) epsQ ]
  :: (tonePreset tone).map (scheduleToneGainEvents currentTime)

/-- `playTickPulse`: envelope on the click's gain node. -/
def tickPulseGainEvents (currentTime volume : ℚ) : List (List GainEvent) :=
  [ [ .setValue currentTime (max epsQ volume)
    , .expRamp (currentTime + 0.25) epsQ ] ]

/-- `startAmbient`: the gain-param events written while building each mode's
graph, one list per gain param, master first. -/
def ambientGainEvents (mode : AmbientMode) (currentTime volume : ℚ) :
    List (List GainEvent) :=
  let masterEvents : List GainEvent := [.setValue currentTime (max epsQ volume)]
  match mode with
  | .waves =>
    masterEvents
    :: ((List.range 3).map (fun _ =>
          [ GainEvent.setValue currentTime 0
          , .linRamp (currentTime + 2.5) 0.35
          , .linRamp (currentTime + 7) 0.2 ])
        ++ (List.range 3).map (fun _ => [GainEvent.setValue currentTime 0.12]))
  | .clouds =>
    [ masterEvents
    , [.setValue currentTime 24]
    , [ .setValue currentTime 0
      , .linRamp (currentTime + 1.8) 0.28
      , .linRamp (currentTime + 6) 0.18 ]
    , [.setValue currentTime 0.38] ]
  | .gradient =>
    [ masterEvents
    , [.setValue currentTime 0.04]
    , [.setValue currentTime 80]
    , [ .setValue currentTime 0
      , .linRamp (currentTime + 1.2) 0.22
      , .linRamp (currentTime + 4.5) 0.08 ] ]

/-- Every exponential-ramp target is at least `eps`. -/
def expFloored (eps : ℚ) (l : List GainEvent) : Bool :=
  l.all (fun e =>
    match e with
    | .expRamp _ v => decide (eps ≤ v)
    | _ => true)

/-- Every value set immediately before an exponential ramp on the same param
is at least `eps` (the ramp's anchor). -/
def anchorsFloored (eps : ℚ) : List GainEvent → Bool
  | .setValue _ v :: .expRamp t w :: rest =>
    decide (eps ≤ v) && anchorsFloored eps (.expRamp t w :: rest)
  | _ :: rest => anchorsFloored eps rest
  | [] => true

def noLinRamp (l : List GainEvent) : Bool :=
  l.all (fun e =>
    match e with
    | .linRamp _ _ => false
    | _ => true)

def envelopeOk (eps : ℚ) (l : List GainEvent) : Bool :=
  expFloored eps l && anchorsFloored eps l

/-! ## Invariants and sample states -/

/-- The store invariant: the deadline is set exactly while running. -/
def TimerInv (s : TimerState) : Prop :=
  s.targetEnd.isSome = true ↔ s.status = TimerStatus.running

/-- The ambient-resource invariant: the connected ambient nodes are exactly
the nodes of the current handle (none when no graph is held), and every one
of them was drawn from the fresh-id counter. -/
def AmbientWF (st : SoundState) : Prop :=
  (match st.ambient with
   | none => st.ambientLive = []
   | some h => st.ambientLive = ambientNodes h)
  ∧ ∀ n ∈ st.ambientLive, n < st.nextNode

/-- A running timer state used as a concrete instance. -/
def wRunning : TimerState :=
  { phase := .focus
    status := .running
    remainingMs := 5
    targetEnd := some 5
    completedFocusCount := 0
    config := initialConfig
    presets := []
    selectedPresetId := none }

/-- A focus-phase state three completed sessions in, used as a concrete
instance. -/
def wFocus3 : TimerState :=
  { phase := .focus
    status := .idle
    remainingMs := 5
    targetEnd := none
    completedFocusCount := 3
    config := initialConfig
    presets := []
    selectedPresetId := none }

/-- A fresh supported sound state used as a concrete instance. -/
def wSound : SoundState :=
  { supported := true
    hasContext := false
    isReady := false
    nextNode := 0
    ambientLive := []
    ambient := none
    tickInterval := none
    nextInterval := 0
    tickVolume := 0.35
    tickBuffer := false }

/-- A sound state whose tick loop is already active, used as a concrete
instance. -/
def wTicking : SoundState :=
  { wSound with hasContext := true, tickInterval := some 0, nextInterval := 1 }

/-! ## C1: the phase-transition function -/

/-- C1: `completePhase` computes the next phase and counter exactly as
specified.  From Focus the achieved count is `completedFocusCount + 1`: at or
beyond `sessionsBeforeLongBreak` the next phase is LongBreak with the counter
reset to 0, otherwise ShortBreak with the counter equal to the achieved
count.  From ShortBreak the next phase is Focus with the counter unchanged;
from LongBreak it is Focus with the counter reset.  Afterwards `remainingMs`
is the new phase's configured duration, and with `autoStart` the status is
running with a fresh deadline, without it idle with no deadline. -/
theorem completePhase_transition_spec (s : TimerState) (now : ℤ) :
    ((s.phase = TimerPhase.focus ∧ s.config.sessionsBeforeLongBreak ≤ s.completedFocusCount + 1) →
        (completePhase now s).phase = TimerPhase.longBreak ∧
        (completePhase now s).completedFocusCount = 0)
  ∧ ((s.phase = TimerPhase.focus ∧ s.completedFocusCount + 1 < s.config.sessionsBeforeLongBreak) →
        (completePhase now s).phase = TimerPhase.shortBreak ∧
        (completePhase now s).completedFocusCount = s.completedFocusCount + 1)
  ∧ (s.phase = TimerPhase.shortBreak →
        (completePhase now s).phase = TimerPhase.focus ∧
        (completePhase now s).completedFocusCount = s.completedFocusCount)
  ∧ (s.phase = TimerPhase.longBreak →
        (completePhase now s).phase = TimerPhase.focus ∧
        (completePhase now s).completedFocusCount = 0)
  ∧ (completePhase now s).remainingMs =
      (durationForPhase (completePhase now s).phase s.config : ℤ)
  ∧ (s.config.autoStart = true →
        (completePhase now s).status = TimerStatus.running ∧
        (completePhase now s).targetEnd =
          some (now + (durationForPhase (completePhase now s).phase s.config : ℤ)))
  ∧ (s.config.autoStart = false →
        (completePhase now s).status = TimerStatus.idle ∧
        (completePhase now s).targetEnd = none) := by
  rcases s with ⟨phase, status, rem, te, count, config, presets, sel⟩
  cases hauto : config.autoStart <;>
    cases phase <;>
      simp [completePhase, hauto] <;>
        split_ifs with h <;>
          simp_all

/-! ## C2: the deadline-iff-running invariant -/

/-- C2: `targetEnd` is set iff `status = running`, in the initial state and
after each of the thirteen store operations, so the invariant holds in every
reachable state. -/
theorem targetEnd_iff_running (s : TimerState) (now : ℤ) (p : TimerConfigPatch)
    (genId nm pid : String) (nextName : Option String) (v : ℤ) :
    TimerInv initialState
  ∧ (TimerInv s →
      TimerInv (start now s) ∧ TimerInv (pause s) ∧ TimerInv (resume now s)
      ∧ TimerInv (reset s) ∧ TimerInv (skip now s) ∧ TimerInv (setRemaining v s)
      ∧ TimerInv (completePhase now s) ∧ TimerInv (updateConfig p s)
      ∧ TimerInv (createPreset genId nm s) ∧ TimerInv (loadPreset pid s)
      ∧ TimerInv (updatePresetFromCurrent pid nextName s)
      ∧ TimerInv (deletePreset pid s) ∧ TimerInv (clearPresetSelection s)) := by
  constructor
  · simp [TimerInv, initialState]
  · intro h
    rcases s with ⟨phase, status, rem, te, count, config, presets, sel⟩
    refine ⟨?_, ?_, ?_, ?_, ?_, ?_, ?_, ?_, ?_, ?_, ?_, ?_, ?_⟩ <;>
      cases phase <;>
        simp [TimerInv, start, pause, resume, reset, skip, completePhase, setRemaining,
          updateConfig, createPreset, loadPreset, updatePresetFromCurrent, deletePreset,
          clearPresetSelection] <;>
          (try split) <;> simp_all [TimerInv]

/-! ## C3: `setRemaining` -/

/-- C3 counterexample: in a running state with 5 ms left, `setRemaining 10`
stores 10, increasing `remainingMs` — the claim that a call can never
increase the stored value fails on the code, which stores the argument
unclamped. -/
theorem setRemaining_can_increase :
    wRunning.status = TimerStatus.running ∧
    wRunning.remainingMs = 5 ∧
    (setRemaining 10 wRunning).remainingMs = 10 ∧
    ¬(setRemaining 10 wRunning).remainingMs ≤ wRunning.remainingMs := by decide

/-- C3 as amended: `setRemaining` is a no-op unless the status is running,
and while running it stores exactly the value passed (monotonicity is the
caller's obligation, not enforced by the store). -/
theorem setRemaining_guarded_store (s : TimerState) (v : ℤ) :
    (s.status ≠ TimerStatus.running → setRemaining v s = s)
  ∧ (s.status = TimerStatus.running → setRemaining v s = { s with remainingMs := v }) := by
  constructor
  · intro h
    simp [setRemaining, h]
  · intro h
    simp [setRemaining, h]

/-- C3 amended claim at a concrete running state. -/
theorem setRemaining_guarded_store_witness :
    setRemaining 10 wRunning = { wRunning with remainingMs := 10 } :=
  (setRemaining_guarded_store wRunning 10).2 rfl

/-! ## C4: the single-fire latch -/

theorem engineTrace_latched (te : ℤ) (ts : List ℤ) :
    EngineAction.storeComplete ∉ engineTrace te true ts ∧
    EngineAction.phaseCallback ∉ engineTrace te true ts := by
  induction ts with
  | nil => simp [engineTrace]
  | cons t ts ih =>
    simp only [engineTrace, engineStep]
    split_ifs <;> simp_all

theorem sessionTrace_single_count (te : ℤ) (times : List ℤ) :
    (sessionTrace te times).count EngineAction.storeComplete ≤ 1 ∧
    (sessionTrace te times).count EngineAction.phaseCallback ≤ 1 := by
  unfold sessionTrace
  induction times with
  | nil => simp [engineTrace]
  | cons t ts ih =>
    by_cases h : te - t ≤ 0
    · have hs := List.count_eq_zero.mpr (engineTrace_latched te ts).1
      have hc := List.count_eq_zero.mpr (engineTrace_latched te ts).2
      simp [engineTrace, engineStep, h, List.count_append, List.count_cons, hs, hc]
    · simpa [engineTrace, engineStep, h, List.count_append, List.count_cons] using ih

/-- C4: over any sequence of tick steps of one session (latch cleared when
the Running deadline was established), completion is signalled at most once,
however many steps observe `remaining ≤ 0`; when it fires, the step emits
exactly display-zero, then the phase-complete callback, then the store's
`completePhase`; and a step never clears the latch, so only a new session
does. -/
theorem engine_single_fire (te : ℤ) (times : List ℤ) :
    (sessionTrace te times).count EngineAction.storeComplete ≤ 1
  ∧ (sessionTrace te times).count EngineAction.phaseCallback ≤ 1
  ∧ (∀ t : ℤ, te - t ≤ 0 →
      (engineStep te t false).2 =
        [EngineAction.setDisplay 0, EngineAction.phaseCallback, EngineAction.storeComplete])
  ∧ (∀ t : ℤ, (engineStep te t true).2.count EngineAction.storeComplete = 0)
  ∧ (∀ t : ℤ, (engineStep te t true).1 = true) := by
  refine ⟨(sessionTrace_single_count te times).1, (sessionTrace_single_count te times).2,
    ?_, ?_, ?_⟩ <;> intro t
  · intro h
    simp [engineStep, h]
  · simp only [engineStep]
    split_ifs <;> simp
  · simp only [engineStep]
    split_ifs <;> simp

/-! ## C5: deadline-based recomputation and drift tolerance -/

theorem fireTime_immediate (te t ft : ℤ) (fuel : Nat) (h : fireTime te t fuel = some ft)
    (h0 : te - t ≤ 0) : ft = t := by
  cases fuel with
  | zero => simp [fireTime] at h
  | succ n =>
    simp [fireTime, h0] at h
    omega

theorem fireTime_spec (te : ℤ) (fuel : Nat) :
    ∀ t0 ft : ℤ, fireTime te t0 fuel = some ft →
      te ≤ ft ∧ (t0 < te →
        ∃ s, s < te ∧ ft = s + getTickInterval (te - s) ∧
          ft - te < getTickInterval (te - s)) := by
  induction fuel with
  | zero => intro t0 ft h; simp [fireTime] at h
  | succ n ih =>
    intro t0 ft h
    by_cases h0 : te - t0 ≤ 0
    · have := fireTime_immediate te t0 ft (n + 1) h h0
      subst this
      exact ⟨by omega, fun hlt => absurd hlt (by omega)⟩
    · rw [fireTime, if_neg h0] at h
      obtain ⟨hge, hex⟩ := ih (nextWake te t0) ft h
      refine ⟨hge, fun _ => ?_⟩
      by_cases h1 : nextWake te t0 < te
      · exact hex h1
      · have hft : ft = nextWake te t0 := fireTime_immediate te _ ft n h (by omega)
        refine ⟨t0, by omega, ?_, ?_⟩
        · rw [hft, nextWake]
        · rw [hft, nextWake]
          omega

/-- C5: a tick step always publishes `deadline - now` (never a previous
remaining minus an interval), whatever the clock value observed; completion
can only fire at a step whose clock is at or past the deadline; and the
self-scheduled loop fires at the deadline or within one adaptive
tick-interval after it — the interval chosen at the last tick before the
deadline. -/
theorem engine_drift_free :
    (∀ te t : ℤ, ∀ b : Bool, 0 < te - t →
      (engineStep te t b).2 = [EngineAction.setDisplay (te - t)])
  ∧ (∀ te t : ℤ, ∀ b : Bool,
      EngineAction.storeComplete ∈ (engineStep te t b).2 → te ≤ t)
  ∧ (∀ te t0 ft : ℤ, ∀ fuel : Nat, fireTime te t0 fuel = some ft →
      te ≤ ft ∧ (t0 < te →
        ∃ s, s < te ∧ ft = s + getTickInterval (te - s) ∧
          ft - te < getTickInterval (te - s))) := by
  refine ⟨?_, ?_, ?_⟩
  · intro te t b h
    have hn : ¬te - t ≤ 0 := by omega
    simp [engineStep, hn]
  · intro te t b h
    by_cases h0 : te - t ≤ 0
    · omega
    · simp [engineStep, h0] at h
  · intro te t0 ft fuel h
    exact fireTime_spec te fuel t0 ft h

/-- C5 at a concrete run: a 450 ms countdown polled from 0 fires at 500 ms,
after the deadline and within the 100 ms interval chosen at its last tick. -/
theorem engine_drift_free_witness :
    fireTime 450 0 7 = some 500 ∧ (450 : ℤ) ≤ 500 ∧
    ∃ s, s < (450 : ℤ) ∧ (500 : ℤ) = s + getTickInterval (450 - s) ∧
      (500 : ℤ) - 450 < getTickInterval (450 - s) :=
  ⟨by decide, (engine_drift_free.2.2 450 0 500 7 (by decide)).1,
    (engine_drift_free.2.2 450 0 500 7 (by decide)).2 (by decide)⟩

/-! ## C6: at most one ambient voice graph -/

theorem ensureContext_frame (st : SoundState) :
    (ensureContext st).1.ambient = st.ambient ∧
    (ensureContext st).1.ambientLive = st.ambientLive ∧
    (ensureContext st).1.nextNode = st.nextNode ∧
    (ensureContext st).2 = (st.hasContext || st.supported) := by
  unfold ensureContext
  split_ifs <;> simp_all

theorem buildAmbient_fresh (mode : AmbientMode) (v : ℚ) (st : SoundState) :
    ∀ n ∈ ambientNodes (buildAmbient mode v st).1,
      st.nextNode ≤ n ∧ n < st.nextNode + 1 + ambientSourceCount mode := by
  intro n hn
  simp [buildAmbient, ambientNodes, List.mem_map, List.mem_range] at hn
  rcases hn with h | ⟨i, hi, rfl⟩ <;> omega

theorem stopAmbient_clears (st : SoundState) (hwf : AmbientWF st) :
    (stopAmbient st).ambientLive = [] := by
  obtain ⟨hmatch, _⟩ := hwf
  unfold stopAmbient
  cases hamb : st.ambient with
  | none => simp [hamb] at hmatch; simpa using hmatch
  | some h =>
    simp only [hamb] at hmatch ⊢
    rw [hmatch]
    simp [List.filter_eq_nil_iff]

theorem stopAmbient_ambient (st : SoundState) : (stopAmbient st).ambient = none := by
  unfold stopAmbient
  split <;> simp_all

theorem stopAmbient_nextNode (st : SoundState) : (stopAmbient st).nextNode = st.nextNode := by
  unfold stopAmbient
  split <;> simp_all

theorem same_mode_retarget (st : SoundState) (mode : AmbientMode) (v : ℚ)
    (h : AmbientHandle) (hamb : st.ambient = some h) (hm : h.mode = mode)
    (hok : st.hasContext = true ∨ st.supported = true) :
    (startAmbient mode v st).1.ambient = some { h with gainTarget := max 0.0001 v } ∧
    (startAmbient mode v st).1.nextNode = st.nextNode ∧
    (startAmbient mode v st).1.ambientLive = st.ambientLive ∧
    (startAmbient mode v st).2 = true := by
  rcases hok with hx | hx <;> by_cases hc : st.hasContext <;>
    simp_all [startAmbient, ensureContext, hamb, hm]

theorem buildAmbient_wf (mode : AmbientMode) (v : ℚ) (st : SoundState)
    (hlive : st.ambientLive = []) :
    AmbientWF { (buildAmbient mode v st).2 with ambient := some (buildAmbient mode v st).1 } := by
  refine ⟨?_, ?_⟩
  · simp [buildAmbient, ambientNodes, hlive]
  · intro n hn
    simp [buildAmbient, hlive, List.mem_map, List.mem_range] at hn ⊢
    rcases hn with h | ⟨i, hi, rfl⟩ <;> omega

theorem ambientWF_ext (a b : SoundState) (h1 : a.ambient = b.ambient)
    (h2 : a.ambientLive = b.ambientLive) (h3 : a.nextNode = b.nextNode) :
    AmbientWF a ↔ AmbientWF b := by
  unfold AmbientWF
  rw [h1, h2, h3]

theorem startAmbient_unavailable (st : SoundState) (mode : AmbientMode) (v : ℚ)
    (hc : st.hasContext = false) (hs : st.supported = false) :
    startAmbient mode v st = (st, false) := by
  simp [startAmbient, ensureContext, hc, hs]

theorem startAmbient_none_build (st : SoundState) (mode : AmbientMode) (v : ℚ)
    (hamb : st.ambient = none) (hok : st.hasContext = true ∨ st.supported = true) :
    startAmbient mode v st =
      ({ (buildAmbient mode v (ensureContext st).1).2 with
          ambient := some (buildAmbient mode v (ensureContext st).1).1 }, true) := by
  rcases hok with h | h <;>
    by_cases hc : st.hasContext <;> simp_all [startAmbient, ensureContext, hamb]

theorem startAmbient_diff_build (st : SoundState) (mode : AmbientMode) (v : ℚ)
    (h : AmbientHandle) (hamb : st.ambient = some h) (hm : ¬h.mode = mode)
    (hok : st.hasContext = true ∨ st.supported = true) :
    startAmbient mode v st =
      ({ (buildAmbient mode v (stopAmbient (ensureContext st).1)).2 with
          ambient := some (buildAmbient mode v (stopAmbient (ensureContext st).1)).1 }, true) := by
  rcases hok with hx | hx <;>
    by_cases hc : st.hasContext <;> simp_all [startAmbient, ensureContext, hamb, hm]

theorem ambientNodes_retarget (h : AmbientHandle) (x : ℚ) :
    ambientNodes { h with gainTarget := x } = ambientNodes h := rfl

theorem startAmbient_wf (st : SoundState) (mode : AmbientMode) (v : ℚ)
    (hwf : AmbientWF st) : AmbientWF (startAmbient mode v st).1 := by
  by_cases hok : st.hasContext = true ∨ st.supported = true
  · have hfr := ensureContext_frame st
    have hwf1 : AmbientWF (ensureContext st).1 :=
      (ambientWF_ext (ensureContext st).1 st hfr.1 hfr.2.1 hfr.2.2.1).mpr hwf
    cases hamb : st.ambient with
    | none =>
      rw [startAmbient_none_build st mode v hamb hok]
      apply buildAmbient_wf
      rw [hfr.2.1]
      have := hwf.1
      rw [hamb] at this
      exact this
    | some h =>
      by_cases hm : h.mode = mode
      · obtain ⟨ha, hn, hl, _⟩ := same_mode_retarget st mode v h hamb hm hok
        have hlive : st.ambientLive = ambientNodes h := by
          have := hwf.1
          rwa [hamb] at this
        refine ⟨?_, ?_⟩
        · rw [ha]
          simp only [hl, hlive, ambientNodes_retarget]
        · intro n hn'
          rw [hl, hlive] at hn'
          rw [hn]
          exact hwf.2 n (hlive ▸ hn')
      · rw [startAmbient_diff_build st mode v h hamb hm hok]
        apply buildAmbient_wf
        exact stopAmbient_clears _ hwf1
  · push_neg at hok
    rw [startAmbient_unavailable st mode v (by simpa using hok.1) (by simpa using hok.2)]
    exact hwf

theorem startAmbient_one_graph (st : SoundState) (mode : AmbientMode) (v : ℚ)
    (hwf : AmbientWF st) (hsucc : (startAmbient mode v st).2 = true) :
    ∃ h, (startAmbient mode v st).1.ambient = some h ∧
      (startAmbient mode v st).1.ambientLive = ambientNodes h := by
  by_cases hok : st.hasContext = true ∨ st.supported = true
  · have hwf' := startAmbient_wf st mode v hwf
    cases hamb' : (startAmbient mode v st).1.ambient with
    | some h' =>
      refine ⟨h', rfl, ?_⟩
      have := hwf'.1
      rwa [hamb'] at this
    | none =>
      exfalso
      cases hamb : st.ambient with
      | none =>
        rw [startAmbient_none_build st mode v hamb hok] at hamb'
        simp at hamb'
      | some h =>
        by_cases hm : h.mode = mode
        · obtain ⟨ha, _, _, _⟩ := same_mode_retarget st mode v h hamb hm hok
          rw [ha] at hamb'
          simp at hamb'
        · rw [startAmbient_diff_build st mode v h hamb hm hok] at hamb'
          simp at hamb'
  · push_neg at hok
    rw [startAmbient_unavailable st mode v (by simpa using hok.1) (by simpa using hok.2)]
      at hsucc
    simp at hsucc

theorem startAmbient_releases_previous (st : SoundState) (mode : AmbientMode) (v : ℚ)
    (h : AmbientHandle) (hamb : st.ambient = some h) (hm : ¬h.mode = mode)
    (hsup : st.supported = true) (hwf : AmbientWF st) :
    ∀ n ∈ ambientNodes h, n ∉ (startAmbient mode v st).1.ambientLive := by
  intro n hn
  have hok : st.hasContext = true ∨ st.supported = true := Or.inr hsup
  have hfr := ensureContext_frame st
  have hwf1 : AmbientWF (ensureContext st).1 :=
    (ambientWF_ext (ensureContext st).1 st hfr.1 hfr.2.1 hfr.2.2.1).mpr hwf
  have hbound : n < st.nextNode := by
    apply hwf.2
    have := hwf.1
    rw [hamb] at this
    rw [this]
    exact hn
  rw [startAmbient_diff_build st mode v h hamb hm hok]
  intro hmem
  have hclear := stopAmbient_clears _ hwf1
  have hnn : (stopAmbient (ensureContext st).1).nextNode = st.nextNode := by
    rw [stopAmbient_nextNode, hfr.2.2.1]
  simp only [buildAmbient, hclear] at hmem
  simp [List.mem_map, List.mem_range] at hmem
  rcases hmem with hg | ⟨i, hi, hg⟩ <;> omega

/-- C6: from any state satisfying the ambient-resource invariant, both
`startAmbient` and `stopAmbient` preserve it; after any successful
`startAmbient` exactly one graph is held and the connected nodes are exactly
that graph's; requesting the already-active mode only retargets its gain —
same handle, no node built, connections untouched; requesting a different
mode leaves no node of the previous graph connected. -/
theorem ambient_single_graph (st : SoundState) (mode : AmbientMode) (v : ℚ) :
    (AmbientWF st → AmbientWF (startAmbient mode v st).1)
  ∧ (AmbientWF st → AmbientWF (stopAmbient st))
  ∧ (stopAmbient st).ambient = none
  ∧ (AmbientWF st → (startAmbient mode v st).2 = true →
      ∃ h, (startAmbient mode v st).1.ambient = some h ∧
        (startAmbient mode v st).1.ambientLive = ambientNodes h)
  ∧ (∀ h, st.ambient = some h → h.mode = mode → st.supported = true →
      (startAmbient mode v st).1.ambient =
        some { h with gainTarget := max 0.0001 v } ∧
      (startAmbient mode v st).1.nextNode = st.nextNode ∧
      (startAmbient mode v st).1.ambientLive = st.ambientLive)
  ∧ (∀ h, st.ambient = some h → h.mode ≠ mode → st.supported = true → AmbientWF st →
      ∀ n ∈ ambientNodes h, n ∉ (startAmbient mode v st).1.ambientLive) := by
  refine ⟨startAmbient_wf st mode v, ?_, stopAmbient_ambient st,
    startAmbient_one_graph st mode v, ?_, ?_⟩
  · intro hwf
    refine ⟨?_, ?_⟩
    · simp only [stopAmbient_ambient]
      exact stopAmbient_clears st hwf
    · intro n hn
      rw [stopAmbient_clears st hwf] at hn
      simp at hn
  · intro h hamb hm hsup
    obtain ⟨ha, hn, hl, _⟩ := same_mode_retarget st mode v h hamb hm (Or.inr hsup)
    exact ⟨ha, hn, hl⟩
  · intro h hamb hm hsup hwf
    exact startAmbient_releases_previous st mode v h hamb hm hsup hwf

/-- C6 at a concrete state: starting `waves` from a fresh supported state
holds exactly one graph whose nodes are the connected ones. -/
theorem ambient_single_graph_witness :
    AmbientWF (startAmbient AmbientMode.waves 0.4 wSound).1 ∧
    (∃ h, (startAmbient AmbientMode.waves 0.4 wSound).1.ambient = some h ∧
      (startAmbient AmbientMode.waves 0.4 wSound).1.ambientLive = ambientNodes h) :=
  ⟨(ambient_single_graph wSound AmbientMode.waves 0.4).1 (by constructor <;> simp [wSound]),
    (ambient_single_graph wSound AmbientMode.waves 0.4).2.2.2.1
      (by constructor <;> simp [wSound]) (by decide)⟩

/-! ## C7: unsupported hosts degrade to no-ops -/

/-- C7: with no audio capability (and hence no context), `isSupported`
reports false and every operation returns without effect and without
throwing: `prime` returns false, `playAlarm` and `playTickPulse` change
nothing, `startTicking` only records the requested volume in the live ref
and returns false, `startAmbient` returns false. -/
theorem audio_unsupported_noop (st : SoundState) (v : ℚ) (mode : AmbientMode)
    (hs : st.supported = false) (hc : st.hasContext = false) :
    isAudioSupported st = false
  ∧ prime st = (st, false)
  ∧ playAlarm st = st
  ∧ playTickPulse st = st
  ∧ startTicking v st = ({ st with tickVolume := v }, false)
  ∧ startAmbient mode v st = (st, false) := by
  refine ⟨hs, ?_, ?_, ?_, ?_, ?_⟩
  · simp [prime, ensureContext, hs, hc]
  · simp [playAlarm, ensureContext, hs, hc]
  · simp [playTickPulse, ensureContext, hs, hc]
  · simp [startTicking, ensureContext, hs, hc]
  · exact startAmbient_unavailable st mode v hc hs

/-- C7 at a concrete unsupported state. -/
theorem audio_unsupported_noop_witness :
    playAlarm { wSound with supported := false } = { wSound with supported := false } :=
  ((audio_unsupported_noop { wSound with supported := false } 0.5 AmbientMode.waves)
    rfl rfl).2.2.1

/-! ## C8: idempotent `startTicking` -/

/-- C8: calling `startTicking` while the tick loop is already active returns
true and creates no second interval: the interval handle and the
fresh-interval counter are unchanged, and the whole state is untouched
except for the live tick-volume ref and the ready flag. -/
theorem startTicking_idempotent (st : SoundState) (v : ℚ) (i : Nat)
    (hi : st.tickInterval = some i) (hc : st.hasContext = true) :
    startTicking v st = ({ st with tickVolume := v, isReady := true }, true)
  ∧ (startTicking v st).1.tickInterval = some i
  ∧ (startTicking v st).1.nextInterval = st.nextInterval := by
  have h : startTicking v st = ({ st with tickVolume := v, isReady := true }, true) := by
    simp [startTicking, ensureContext, hc, hi]
  exact ⟨h, by rw [h]; exact hi, by rw [h]⟩

/-- C8 at a concrete already-ticking state. -/
theorem startTicking_idempotent_witness :
    startTicking 0.5 wTicking = ({ wTicking with tickVolume := 0.5, isReady := true }, true) ∧
    (startTicking 0.5 wTicking).1.nextInterval = wTicking.nextInterval :=
  ⟨(startTicking_idempotent wTicking 0.5 0 rfl rfl).1,
    (startTicking_idempotent wTicking 0.5 0 rfl rfl).2.2⟩

/-! ## C9: exponential ramps anchored above zero -/

/-- C9: every gain envelope of every alarm, tick and tone playback has all
its exponential-ramp targets at least 0.0001, every value set immediately
before an exponential ramp at least 0.0001 (volumes are clamped with
`max 0.0001 volume`), and contains no linear ramp — linear ramps appear only
in the ambient beds' fade-ins, whose envelopes still satisfy the
exponential-anchor floor. -/
theorem gain_envelopes_floored (ct v : ℚ) (tone : AlarmTone) (mode : AmbientMode) :
    ((playAlarmGainEvents ct tone v).all fun l => envelopeOk epsQ l && noLinRamp l) = true
  ∧ ((tickPulseGainEvents ct v).all fun l => envelopeOk epsQ l && noLinRamp l) = true
  ∧ (∀ t : ToneSpec, (envelopeOk epsQ (scheduleToneGainEvents ct t) &&
      noLinRamp (scheduleToneGainEvents ct t)) = true)
  ∧ ((ambientGainEvents mode ct v).all fun l => envelopeOk epsQ l) = true := by
  have hmax : epsQ ≤ max epsQ v := le_max_left _ _
  have heps : epsQ ≤ epsQ := le_refl _
  have hone : epsQ ≤ 1 := by norm_num [epsQ]
  refine ⟨?_, ?_, ?_, ?_⟩
  · cases tone <;>
      simp [playAlarmGainEvents, tonePreset, scheduleToneGainEvents, envelopeOk,
        expFloored, anchorsFloored, noLinRamp, hmax, heps, hone]
  · simp [tickPulseGainEvents, envelopeOk, expFloored, anchorsFloored, noLinRamp,
      hmax, heps]
  · intro t
    simp [scheduleToneGainEvents, envelopeOk, expFloored, anchorsFloored, noLinRamp,
      heps, hone]
  · cases mode <;>
      simp [ambientGainEvents, envelopeOk, expFloored, anchorsFloored, List.range_succ,
        hmax, heps]

/-! ## C10: `completePhase` has no status precondition -/

/-- C10: `completePhase` never reads the prior status — replacing it by any
value yields the same result — `skip` is exactly `completePhase`, and the
resulting status and deadline depend only on `config.autoStart`: running with
a fresh deadline when set, idle with none otherwise. -/
theorem completePhase_status_independent (s : TimerState) (σ : TimerStatus) (now : ℤ) :
    completePhase now { s with status := σ } = completePhase now s
  ∧ skip now s = completePhase now s
  ∧ (completePhase now s).status =
      (if s.config.autoStart then TimerStatus.running else TimerStatus.idle)
  ∧ (completePhase now s).targetEnd =
      (if s.config.autoStart
        then some (now + (durationForPhase (completePhase now s).phase s.config : ℤ))
        else none) := by
  rcases s with ⟨phase, status, rem, te, count, config, presets, sel⟩
  cases phase <;> simp [completePhase, skip]
